import Mathlib

/-!
Shallow embedding of the Devil's Trading portfolio core in Lean 4, with
theorems checking the natural-language specification against the code.

Embedded modules:
  * `src/portfolio/portfolio_manager.py` (`PortfolioManager`)
  * `src/bridge/position_manager.py` (`PositionManager`)
  * `src/portfolio/capital_allocator.py` (`CapitalAllocator`)
  * `src/execution/smart_executor.py` (`SmartExecutor`)

Python floats are modelled as `ℚ` (the code performs only field arithmetic on
them), Python ints as `ℤ` or `ℕ`, and Python dicts as association lists with
Python's insert/overwrite/delete semantics.  Randomized price noise in the
execution engine is an injected function `ℕ → ℚ` (one draw per slice), which
never influences slice quantities.
-/

namespace DevilTrading

/-! ### Association-list dictionaries (Python `dict` semantics) -/

/-- First-match lookup, the value stored for key `k` (Python `d[k]` / `in`). -/
def lookupD {κ α : Type} [DecidableEq κ] : List (κ × α) → κ → Option α
  | [], _ => none
  | (k, v) :: rest, k' => if k = k' then some v else lookupD rest k'

/-- Insert or overwrite the binding for `k` (Python `d[k] = v`). -/
def insertD {κ α : Type} [DecidableEq κ] : List (κ × α) → κ → α → List (κ × α)
  | [], k, v => [(k, v)]
  | (k', v') :: rest, k, v =>
      if k' = k then (k, v) :: rest else (k', v') :: insertD rest k v

/-- Remove the binding for `k` (Python `del d[k]`). -/
def eraseD {κ α : Type} [DecidableEq κ] : List (κ × α) → κ → List (κ × α)
  | [], _ => []
  | (k', v') :: rest, k => if k' = k then rest else (k', v') :: eraseD rest k

/-- Apply `f` to the value stored for `k`, if any (Python in-place mutation of
`d[k]`). -/
def updateD {κ α : Type} [DecidableEq κ] : List (κ × α) → κ → (α → α) → List (κ × α)
  | [], _, _ => []
  | (k', v') :: rest, k, f =>
      if k' = k then (k', f v') :: rest else (k', v') :: updateD rest k f

/-- Python `int(x)` on a rational: truncation toward zero. -/
def pyInt (q : ℚ) : ℤ := if q < 0 then -⌊-q⌋ else ⌊q⌋

/-! ### Data model of `src/portfolio/portfolio_manager.py` -/

/-- `StrategyAllocation` dataclass (portfolio_manager.py:16-27). -/
structure StrategyAllocation where
  strategy_name : String
  allocated_capital : ℚ
  max_risk_per_trade : ℚ
  max_positions : ℤ
  current_positions : ℤ
  current_pnl : ℚ
  total_trades : ℤ
  winning_trades : ℤ
  is_active : Bool
deriving DecidableEq

/-- `PortfolioPosition` dataclass (portfolio_manager.py:30-43); the
`entry_time : datetime` field is dropped (wall-clock time is out of the
model), and the timestamp-derived string `position_id` is modelled as the ℕ
issued by a fresh-id counter, keeping the id unique as the code intends. -/
structure PortfolioPosition where
  position_id : ℕ
  strategy_name : String
  symbol : String
  quantity : ℤ
  entry_price : ℚ
  current_price : ℚ
  stop_loss : ℚ
  target : ℚ
  pnl : ℚ
  pnl_pct : ℚ
deriving DecidableEq

/-- Mutable state of `PortfolioManager` (portfolio_manager.py:51-65);
`portfolio_history`/`equity_curve` are dropped (never read by the embedded
operations).  `next_position_id` is the fresh-id counter backing
`position_id` generation. -/
structure PortfolioManager where
  total_capital : ℚ
  available_capital : ℚ
  max_risk_per_strategy : ℚ
  strategy_allocations : List (String × StrategyAllocation)
  active_positions : List (ℕ × PortfolioPosition)
  closed_positions : List PortfolioPosition
  next_position_id : ℕ
deriving DecidableEq

/-- `PortfolioManager.__init__` with the default `max_risk_per_strategy`. -/
def mkPortfolioManager (total_capital : ℚ) : PortfolioManager :=
  { total_capital := total_capital
    available_capital := total_capital
    max_risk_per_strategy := 2 / 100
    strategy_allocations := []
    active_positions := []
    closed_positions := []
    next_position_id := 0 }

/-- `PortfolioManager.add_strategy` (portfolio_manager.py:67-94).  The
`ValueError` on an out-of-range percentage is modelled as leaving the state
unchanged (the exception propagates before any mutation). -/
def addStrategy (m : PortfolioManager) (strategy_name : String) (allocation_pct : ℚ)
    (max_positions : ℤ) (risk_per_trade_pct : ℚ) : PortfolioManager :=
  if allocation_pct ≤ 0 ∨ allocation_pct > 100 then m
  else
    let allocated_capital := m.total_capital * (allocation_pct / 100)
    let a : StrategyAllocation :=
      { strategy_name := strategy_name
        allocated_capital := allocated_capital
        max_risk_per_trade := allocated_capital * (risk_per_trade_pct / 100)
        max_positions := max_positions
        current_positions := 0
        current_pnl := 0
        total_trades := 0
        winning_trades := 0
        is_active := true }
    { m with strategy_allocations := insertD m.strategy_allocations strategy_name a }

/-- `PortfolioManager.can_open_position` (portfolio_manager.py:96-109). -/
def canOpenPosition (m : PortfolioManager) (strategy_name : String) : Bool :=
  match lookupD m.strategy_allocations strategy_name with
  | none => false
  | some a =>
    if a.is_active = false then false
    else if a.current_positions ≥ a.max_positions then false
    else true

/-- `PortfolioManager.calculate_position_size` (portfolio_manager.py:111-140). -/
def calculatePositionSize (m : PortfolioManager) (strategy_name : String)
    (entry_price stop_loss : ℚ) : ℤ :=
  match lookupD m.strategy_allocations strategy_name with
  | none => 0
  | some a =>
    let risk_amount := a.max_risk_per_trade
    let sl_distance := |entry_price - stop_loss|
    if sl_distance = 0 then 0
    else
      let quantity := pyInt (risk_amount / sl_distance)
      let max_quantity := pyInt (a.allocated_capital / entry_price)
      min quantity max_quantity

/-- `PortfolioManager.open_position` (portfolio_manager.py:142-187).  Returns
the `Optional[str]` result (here the fresh ℕ id) together with the next
state. -/
def openPosition (m : PortfolioManager) (strategy_name symbol : String) (quantity : ℤ)
    (entry_price stop_loss target : ℚ) : Option ℕ × PortfolioManager :=
  if canOpenPosition m strategy_name = false then (none, m)
  else
    let pid := m.next_position_id
    let position : PortfolioPosition :=
      { position_id := pid
        strategy_name := strategy_name
        symbol := symbol
        quantity := quantity
        entry_price := entry_price
        current_price := entry_price
        stop_loss := stop_loss
        target := target
        pnl := 0
        pnl_pct := 0 }
    (some pid,
      { m with
        active_positions := (pid, position) :: m.active_positions
        strategy_allocations := updateD m.strategy_allocations strategy_name
          (fun a => { a with
            current_positions := a.current_positions + 1
            total_trades := a.total_trades + 1 })
        available_capital := m.available_capital - entry_price * (quantity : ℚ)
        next_position_id := pid + 1 })

/-- `PortfolioManager.close_position` (portfolio_manager.py:189-230).  Returns
the `Optional[float]` P&L together with the next state.  (With a zero entry
price the Python code raises `ZeroDivisionError` computing `pnl_pct` before
mutating anything; `ℚ` division totalises that corner as `pnl_pct = 0`, which
no embedded claim touches.) -/
def closePosition (m : PortfolioManager) (pid : ℕ) (exit_price : ℚ) :
    Option ℚ × PortfolioManager :=
  match lookupD m.active_positions pid with
  | none => (none, m)
  | some position =>
    let pnl := (exit_price - position.entry_price) * (position.quantity : ℚ)
    let pnl_pct := (exit_price - position.entry_price) / position.entry_price * 100
    let position' := { position with
      current_price := exit_price
      pnl := pnl
      pnl_pct := pnl_pct }
    (some pnl,
      { m with
        strategy_allocations := updateD m.strategy_allocations position.strategy_name
          (fun a => { a with
            current_positions := a.current_positions - 1
            current_pnl := a.current_pnl + pnl
            winning_trades := if pnl > 0 then a.winning_trades + 1 else a.winning_trades })
        closed_positions := m.closed_positions ++ [position']
        active_positions := eraseD m.active_positions pid
        available_capital := m.available_capital + exit_price * (position.quantity : ℚ) })

/-- `PortfolioManager.update_positions` (portfolio_manager.py:232-243). -/
def updatePositions (m : PortfolioManager) (price_data : List (String × ℚ)) :
    PortfolioManager :=
  { m with
    active_positions := m.active_positions.map (fun p =>
      match lookupD price_data p.2.symbol with
      | none => p
      | some current_price =>
        (p.1, { p.2 with
          current_price := current_price
          pnl := (current_price - p.2.entry_price) * (p.2.quantity : ℚ)
          pnl_pct := (current_price - p.2.entry_price) / p.2.entry_price * 100 })) }

/-- Per-position body of `PortfolioManager.check_stop_loss_targets`
(portfolio_manager.py:252-261): the stop-loss branch, `elif` the target
branch. -/
def stopTargetCheck (position : PortfolioPosition) : Option (ℚ × String) :=
  if position.current_price ≤ position.stop_loss then
    some (position.current_price, "Stop Loss")
  else if position.current_price ≥ position.target then
    some (position.current_price, "Target")
  else none

/-- `PortfolioManager.check_stop_loss_targets` (portfolio_manager.py:245-263). -/
def checkStopLossTargets (m : PortfolioManager) : List (ℕ × ℚ × String) :=
  m.active_positions.filterMap (fun p =>
    (stopTargetCheck p.2).map (fun r => (p.1, r.1, r.2)))

/-! ### Data model of `src/bridge/position_manager.py` -/

/-- A position dict of `PositionManager` (position_manager.py:142-155).
`entry_time`/`exit_time` (wall-clock) and `metadata` are dropped; the
`exit_price`/`exit_reason` keys, added by `_close_position`, start as
`none`. -/
structure BridgePosition where
  symbol : String
  quantity : ℤ
  entry_price : ℚ
  current_price : ℚ
  order_type : String
  stop_loss : Option ℚ
  target : Option ℚ
  pnl : ℚ
  pnl_percent : ℚ
  status : String
  exit_price : Option ℚ
  exit_reason : Option String
deriving DecidableEq

/-- The `self.stats` dict of `PositionManager` (position_manager.py:49-62). -/
structure TradeStats where
  total_trades : ℤ
  winning_trades : ℤ
  losing_trades : ℤ
  total_profit : ℚ
  total_loss : ℚ
  largest_win : ℚ
  largest_loss : ℚ
  win_rate : ℚ
  avg_win : ℚ
  avg_loss : ℚ
  profit_factor : ℚ
  expectancy : ℚ
deriving DecidableEq

/-- Mutable state of `PositionManager` (position_manager.py:26-62); the broker
connection fields and mode are out of the model (PAPER mode touches no IO). -/
structure PositionManager where
  positions : List (String × BridgePosition)
  closed_positions : List BridgePosition
  daily_pnl : ℚ
  total_pnl : ℚ
  max_daily_loss : ℚ
  max_positions : ℤ
  stats : TradeStats
deriving DecidableEq

/-- `PositionManager.__init__` with explicit risk limits (the code reads them
from the `MAX_DAILY_LOSS`/`MAX_POSITIONS` environment variables, defaults 2.5
and 2). -/
def mkPositionManager (max_daily_loss : ℚ) (max_positions : ℤ) : PositionManager :=
  { positions := []
    closed_positions := []
    daily_pnl := 0
    total_pnl := 0
    max_daily_loss := max_daily_loss
    max_positions := max_positions
    stats :=
      { total_trades := 0, winning_trades := 0, losing_trades := 0
        total_profit := 0, total_loss := 0, largest_win := 0, largest_loss := 0
        win_rate := 0, avg_win := 0, avg_loss := 0, profit_factor := 0
        expectancy := 0 } }

/-- `PositionManager._update_statistics` (position_manager.py:285-324),
including its trailing `daily_pnl`/`total_pnl` accumulation. -/
def updateStatistics (pm : PositionManager) (closed_position : BridgePosition) :
    PositionManager :=
  let pnl := closed_position.pnl
  let s1 := { pm.stats with total_trades := pm.stats.total_trades + 1 }
  let s2 :=
    if pnl > 0 then
      { s1 with
        winning_trades := s1.winning_trades + 1
        total_profit := s1.total_profit + pnl
        largest_win := max s1.largest_win pnl }
    else
      { s1 with
        losing_trades := s1.losing_trades + 1
        total_loss := s1.total_loss + |pnl|
        largest_loss := max s1.largest_loss |pnl| }
  let s3 : TradeStats := { s2 with
    win_rate := if s2.total_trades > 0 then (s2.winning_trades : ℚ) / (s2.total_trades : ℚ) * 100 else 0
    avg_win := if s2.winning_trades > 0 then s2.total_profit / (s2.winning_trades : ℚ) else 0
    avg_loss := if s2.losing_trades > 0 then s2.total_loss / (s2.losing_trades : ℚ) else 0 }
  let s4 := if s3.total_loss > 0 then { s3 with profit_factor := s3.total_profit / s3.total_loss } else s3
  let wr := s4.win_rate / 100
  let s5 := { s4 with expectancy := wr * s4.avg_win - (1 - wr) * s4.avg_loss }
  { pm with
    stats := s5
    daily_pnl := pm.daily_pnl + pnl
    total_pnl := pm.total_pnl + pnl }

/-- `PositionManager._close_position` (position_manager.py:244-283). -/
def closePositionB (pm : PositionManager) (symbol : String) (exit_price : ℚ)
    (reason : String) : PositionManager :=
  match lookupD pm.positions symbol with
  | none => pm
  | some position =>
    let final_pnl :=
      if position.order_type = "BUY" then
        (exit_price - position.entry_price) * (position.quantity : ℚ)
      else
        (position.entry_price - exit_price) * (position.quantity : ℚ)
    let position' := { position with
      exit_price := some exit_price
      exit_reason := some reason
      status := "CLOSED"
      pnl := final_pnl
      pnl_percent := final_pnl / (position.entry_price * (position.quantity : ℚ)) * 100 }
    let pm' := updateStatistics pm position'
    { pm' with
      closed_positions := pm'.closed_positions ++ [position']
      positions := eraseD pm'.positions symbol }

/-- `PositionManager._update_existing_position` (position_manager.py:171-193). -/
def updateExistingPosition (pm : PositionManager) (symbol : String) (quantity : ℤ)
    (price : ℚ) (order_type : String) : PositionManager :=
  match lookupD pm.positions symbol with
  | none => pm
  | some position =>
    if order_type = position.order_type then
      let total_value := (position.quantity : ℚ) * position.entry_price + (quantity : ℚ) * price
      let total_qty := position.quantity + quantity
      let averaged := { position with
        entry_price := total_value / (total_qty : ℚ)
        quantity := total_qty }
      { pm with positions := insertD pm.positions symbol averaged }
    else
      let position' := { position with quantity := position.quantity - quantity }
      let pm' := { pm with positions := insertD pm.positions symbol position' }
      if position'.quantity ≤ 0 then closePositionB pm' symbol price "MANUAL" else pm'

/-- `PositionManager.add_position` (position_manager.py:122-169). -/
def addPosition (pm : PositionManager) (symbol : String) (quantity : ℤ) (entry_price : ℚ)
    (order_type : String) (stop_loss target : Option ℚ) : PositionManager :=
  match lookupD pm.positions symbol with
  | some _ => updateExistingPosition pm symbol quantity entry_price order_type
  | none =>
    let position : BridgePosition :=
      { symbol := symbol
        quantity := quantity
        entry_price := entry_price
        current_price := entry_price
        order_type := order_type
        stop_loss := stop_loss
        target := target
        pnl := 0
        pnl_percent := 0
        status := "OPEN"
        exit_price := none
        exit_reason := none }
    { pm with positions := insertD pm.positions symbol position }

/-- The stop-loss branch of `PositionManager.update_price`
(position_manager.py:219-228).  Python's `if position['stop_loss']:` is a
truthiness test: `None` and `0.0` both skip the check. -/
def slHit (position : BridgePosition) : Bool :=
  match position.stop_loss with
  | none => false
  | some sl =>
    if sl = 0 then false
    else if position.order_type = "BUY" then decide (position.current_price ≤ sl)
    else if position.order_type = "SELL" then decide (position.current_price ≥ sl)
    else false

/-- The target branch of `PositionManager.update_price`
(position_manager.py:230-239), reached only when the stop branch did not
fire; same truthiness convention. -/
def targetHit (position : BridgePosition) : Bool :=
  match position.target with
  | none => false
  | some t =>
    if t = 0 then false
    else if position.order_type = "BUY" then decide (position.current_price ≥ t)
    else if position.order_type = "SELL" then decide (position.current_price ≤ t)
    else false

/-- `PositionManager.update_price` (position_manager.py:195-242): mark to
market, then auto-close on stop loss, else on target, at the tick price. -/
def updatePrice (pm : PositionManager) (symbol : String) (current_price : ℚ) :
    PositionManager :=
  match lookupD pm.positions symbol with
  | none => pm
  | some position =>
    let pnl :=
      if position.order_type = "BUY" then
        (current_price - position.entry_price) * (position.quantity : ℚ)
      else
        (position.entry_price - current_price) * (position.quantity : ℚ)
    let position' := { position with
      current_price := current_price
      pnl := pnl
      pnl_percent := pnl / (position.entry_price * (position.quantity : ℚ)) * 100 }
    let pm' := { pm with positions := insertD pm.positions symbol position' }
    if slHit position' then closePositionB pm' symbol current_price "STOP_LOSS"
    else if targetHit position' then closePositionB pm' symbol current_price "TARGET"
    else pm'

/-- `PositionManager.check_risk_limits` (position_manager.py:364-390). -/
def checkRiskLimits (pm : PositionManager) : Bool :=
  if |pm.daily_pnl| ≥ pm.max_daily_loss then false
  else if (pm.positions.length : ℤ) ≥ pm.max_positions then false
  else true

/-! ### `src/portfolio/capital_allocator.py` -/

/-- One entry of the `strategy_performance` dict consumed by
`CapitalAllocator.performance_based`; the source field `sharpe_ratio` is
shortened to `sharpe` here. -/
structure StrategyPerf where
  win_rate : ℚ
  avg_return : ℚ
  sharpe : ℚ
deriving DecidableEq

/-- Per-strategy score of `CapitalAllocator.performance_based`
(capital_allocator.py:45-53). -/
def perfScore (perf : StrategyPerf) : ℚ :=
  let win_rate_score := perf.win_rate / 100
  let return_score := max 0 (min 1 ((perf.avg_return + 10) / 20))
  let sharpe_score := max 0 (min 1 ((perf.sharpe + 1) / 3))
  max (1 / 10) (win_rate_score * (4 / 10) + return_score * (3 / 10) + sharpe_score * (3 / 10))

/-- `CapitalAllocator.performance_based` (capital_allocator.py:26-59); the
input dict is modelled as its item list (keys distinct). -/
def performanceBased (strategy_performance : List (String × StrategyPerf)) :
    List (String × ℚ) :=
  let scores := strategy_performance.map (fun p => (p.1, perfScore p.2))
  let total_score := (scores.map (fun p => p.2)).sum
  scores.map (fun p => (p.1, p.2 / total_score * 100))

/-- `CapitalAllocator.risk_parity` (capital_allocator.py:61-80). -/
def riskParity (strategy_volatilities : List (String × ℚ)) : List (String × ℚ) :=
  let inv_vols := strategy_volatilities.map (fun p =>
    (p.1, if p.2 > 0 then 1 / p.2 else (1 : ℚ)))
  let total_inv_vol := (inv_vols.map (fun p => p.2)).sum
  inv_vols.map (fun p => (p.1, p.2 / total_inv_vol * 100))

/-- `CapitalAllocator.kelly_criterion` (capital_allocator.py:82-106).  (For
`avg_win = 0` with `avg_loss ≠ 0` the Python code raises
`ZeroDivisionError`; `ℚ` division totalises that corner as result 0.) -/
def kellyCriterion (win_rate avg_win avg_loss : ℚ) : ℚ :=
  if avg_loss = 0 then 0
  else
    let win_loss_r := avg_win / avg_loss
    let kelly_pct := ((win_rate / 100) * win_loss_r - (1 - win_rate / 100)) / win_loss_r
    let fractional_kelly := kelly_pct * (1 / 2)
    max 0 (min 25 (fractional_kelly * 100))

/-! ### `src/execution/smart_executor.py`

Order quantities are `ℕ` (the embedded claims posit positive requested
quantities; all Python ints on these paths are then non-negative).  The
`np.random.randn()` draw of slice `i` is the injected `noise i`; prices
depend on it, quantities never do. -/

/-- One slice dict produced by the executor; `timestamp` and the
iceberg-only `visible_quantity` display field are carried where produced. -/
structure OrderSlice where
  slice_num : ℕ
  quantity : ℕ
  price : ℚ
  visible_quantity : Option ℕ
deriving DecidableEq

/-- `ExecutionResult` dataclass (smart_executor.py:27-37), without the
wall-clock `execution_time` and the constant `status`/`strategy` tags. -/
structure ExecutionResult where
  total_quantity : ℕ
  filled_quantity : ℕ
  avg_execution_price : ℚ
  slices : List OrderSlice
  total_slippage : ℚ
deriving DecidableEq

/-- Sum of the slice quantities; in the Python loops `filled` is accumulated
by exactly one `filled += slice_qty` per appended slice, so it always equals
this sum. -/
def sliceQtySum (slices : List OrderSlice) : ℕ :=
  (slices.map (fun s => s.quantity)).sum

/-- Total cost `Σ price × quantity` accumulated by the loops. -/
def sliceCost (slices : List OrderSlice) : ℚ :=
  (slices.map (fun s => s.price * (s.quantity : ℚ))).sum

/-- Package the loop results the way each `execute_*` epilogue does:
`avg_price = total_cost / filled if filled > 0 else 0` and
`total_slippage = |avg_price − price| × filled`. -/
def mkResult (quantity : ℕ) (price : ℚ) (slices : List OrderSlice) : ExecutionResult :=
  let filled := sliceQtySum slices
  let avg_price := if 0 < filled then sliceCost slices / (filled : ℚ) else 0
  { total_quantity := quantity
    filled_quantity := filled
    avg_execution_price := avg_price
    slices := slices
    total_slippage := |avg_price - price| * (filled : ℚ) }

/-- `SmartExecutor.execute_market` (smart_executor.py:61-107). -/
def executeMarket (quantity : ℕ) (side : String) (price : ℚ) : ExecutionResult :=
  let slippage_pct := (1 : ℚ) / 1000
  let execution_price :=
    if side = "BUY" then price * (1 + slippage_pct) else price * (1 - slippage_pct)
  { total_quantity := quantity
    filled_quantity := quantity
    avg_execution_price := execution_price
    slices := [{ slice_num := 1, quantity := quantity, price := execution_price,
                 visible_quantity := none }]
    total_slippage := |execution_price - price| * (quantity : ℚ) }

/-- Quantity of TWAP/ICEBERG slice `i`: `quantity // num_slices` plus one of
the `quantity % num_slices` remainder units handed to the earliest slices
(smart_executor.py:130-139 and 309-317). -/
def evenSliceQty (quantity num_slices i : ℕ) : ℕ :=
  quantity / num_slices + (if i < quantity % num_slices then 1 else 0)

/-- Price of TWAP slice `i` (smart_executor.py:141-150). -/
def twapSlicePrice (num_slices i : ℕ) (side : String) (price : ℚ) (noise : ℕ → ℚ) : ℚ :=
  let execution_price := price * (1 + noise i)
  let impact := (5 / 10000) * (1 - (i : ℚ) / (num_slices : ℚ))
  if side = "BUY" then execution_price * (1 + impact) else execution_price * (1 - impact)

/-- `SmartExecutor.execute_twap` (smart_executor.py:109-182). -/
def executeTwap (quantity num_slices : ℕ) (side : String) (price : ℚ)
    (noise : ℕ → ℚ) : ExecutionResult :=
  let slices := (List.range num_slices).map (fun i =>
    { slice_num := i + 1
      quantity := evenSliceQty quantity num_slices i
      price := twapSlicePrice num_slices i side price noise
      visible_quantity := none })
  mkResult quantity price slices

/-- Price of ICEBERG slice `i` (smart_executor.py:318-328): halved noise and
an impact scaled by the visible fraction. -/
def icebergSlicePrice (quantity visible_quantity : ℕ) (i : ℕ) (side : String)
    (price : ℚ) (noise : ℕ → ℚ) : ℚ :=
  let execution_price := price * (1 + noise i * (1 / 2))
  let impact := (1 / 10000) * ((visible_quantity : ℚ) / (quantity : ℚ))
  if side = "BUY" then execution_price * (1 + impact) else execution_price * (1 - impact)

/-- `SmartExecutor.execute_iceberg` (smart_executor.py:285-361);
`visible_quantity = none` models the Python default
`max(1, quantity // 5)`. -/
def executeIceberg (quantity : ℕ) (visible_quantity : Option ℕ) (num_slices : ℕ)
    (side : String) (price : ℚ) (noise : ℕ → ℚ) : ExecutionResult :=
  let vq := match visible_quantity with
    | none => max 1 (quantity / 5)
    | some v => v
  let slices := (List.range num_slices).map (fun i =>
    let slice_qty := evenSliceQty quantity num_slices i
    { slice_num := i + 1
      quantity := slice_qty
      price := icebergSlicePrice quantity vq i side price noise
      visible_quantity := some (min slice_qty vq) })
  mkResult quantity price slices

/-- The last `num_slices` elements of a list
(`historical_volume['volume'].tail(num_slices)`). -/
def tailN {α : Type} (num_slices : ℕ) (l : List α) : List α :=
  l.drop (l.length - num_slices)

/-- Volume distribution of `SmartExecutor.execute_vwap`
(smart_executor.py:205-211): equal weights on an empty history, otherwise the
last `num_slices` volumes normalized by their sum. -/
def vwapPcts (num_slices : ℕ) (volumes : List ℚ) : List ℚ :=
  if volumes = [] then List.replicate num_slices (1 / (num_slices : ℚ))
  else
    let recent := tailN num_slices volumes
    recent.map (fun v => v / recent.sum)

/-- The volume-proportional slices of `SmartExecutor.execute_vwap`
(smart_executor.py:217-247), from loop index `i` on: slice `i` carries
`int(quantity × pct_i)` units and is skipped entirely (`continue`) when that
truncation is zero. -/
def vwapRawSlicesFrom (quantity : ℕ) (side : String) (price : ℚ) (noise : ℕ → ℚ) :
    ℕ → List ℚ → List OrderSlice
  | _, [] => []
  | i, pct :: rest =>
    let slice_qty := (pyInt ((quantity : ℚ) * pct)).toNat
    (if slice_qty = 0 then [] else
      let execution_price := price * (1 + noise i)
      let impact := ((slice_qty : ℚ) / (quantity : ℚ)) * (1 / 1000)
      [{ slice_num := i + 1
         quantity := slice_qty
         price := if side = "BUY" then execution_price * (1 + impact)
                  else execution_price * (1 - impact)
         visible_quantity := none }])
      ++ vwapRawSlicesFrom quantity side price noise (i + 1) rest

/-- The volume-proportional slices of the whole `execute_vwap` loop. -/
def vwapRawSlices (quantity : ℕ) (pcts : List ℚ) (side : String) (price : ℚ)
    (noise : ℕ → ℚ) : List OrderSlice :=
  vwapRawSlicesFrom quantity side price noise 0 pcts

/-- `SmartExecutor.execute_vwap` (smart_executor.py:184-283): the raw
volume-proportional slices, then — if they under-fill — one trailing slice of
the remaining quantity at the unadjusted reference price. -/
def executeVwap (quantity num_slices : ℕ) (volumes : List ℚ) (side : String)
    (price : ℚ) (noise : ℕ → ℚ) : ExecutionResult :=
  let raw := vwapRawSlices quantity (vwapPcts num_slices volumes) side price noise
  let filled := sliceQtySum raw
  let slices :=
    if filled < quantity then
      raw ++ [{ slice_num := num_slices + 1, quantity := quantity - filled,
                price := price, visible_quantity := none }]
    else raw
  mkResult quantity price slices

/-! ### Operation sequences over the portfolio ledger -/

/-- One mutating call on `PortfolioManager`.  Failed calls (inactive or full
strategy, unknown position id, out-of-range percentage) leave the state
unchanged, so quantifying over all op lists covers exactly the sequences of
successful operations. -/
inductive PortfolioOp where
  | addStrat (strategy_name : String) (allocation_pct : ℚ)
      (max_positions : ℤ) (risk_per_trade_pct : ℚ)
  | openPos (strategy_name symbol : String) (quantity : ℤ)
      (entry_price stop_loss target : ℚ)
  | closePos (pid : ℕ) (exit_price : ℚ)

/-- State transition of a single operation. -/
def stepOp (m : PortfolioManager) : PortfolioOp → PortfolioManager
  | .addStrat n pct mp rp => addStrategy m n pct mp rp
  | .openPos n s q e sl t => (openPosition m n s q e sl t).2
  | .closePos pid x => (closePosition m pid x).2

/-- Run a list of operations left to right. -/
def runOps (m : PortfolioManager) : List PortfolioOp → PortfolioManager
  | [] => m
  | op :: rest => runOps (stepOp m op) rest

/-- `Σ entry_price × quantity` over the active positions (the booked cost of
the open book). -/
def openCost (m : PortfolioManager) : ℚ :=
  (m.active_positions.map (fun p => p.2.entry_price * (p.2.quantity : ℚ))).sum

/-- `Σ pnl` over the closed positions (realized P&L to date). -/
def realizedPnl (m : PortfolioManager) : ℚ :=
  (m.closed_positions.map (fun p => p.pnl)).sum

/-- The capital-conservation invariant of the specification. -/
def conservation (m : PortfolioManager) : Prop :=
  m.available_capital + openCost m = m.total_capital + realizedPnl m

/-- `Σ allocated_capital` over the registered strategies. -/
def allocSum (m : PortfolioManager) : ℚ :=
  (m.strategy_allocations.map (fun p => p.2.allocated_capital)).sum

/-- Arguments of one `add_strategy` call. -/
structure AddReq where
  strategy_name : String
  allocation_pct : ℚ
  max_positions : ℤ
  risk_per_trade_pct : ℚ

/-- Run a list of `add_strategy` calls. -/
def runAdds (m : PortfolioManager) : List AddReq → PortfolioManager
  | [] => m
  | r :: rest =>
      runAdds (addStrategy m r.strategy_name r.allocation_pct r.max_positions
        r.risk_per_trade_pct) rest

/-- Sum of the allocation percentages of the requests `add_strategy` accepts
(those in `(0, 100]`); rejected requests contribute nothing. -/
def validPctSum : List AddReq → ℚ
  | [] => 0
  | r :: rest =>
      (if 0 < r.allocation_pct ∧ r.allocation_pct ≤ 100 then r.allocation_pct else 0)
        + validPctSum rest

/-! ### Reason-tracking views of the boolean risk checks -/

/-- Denial reasons named by the specification's risk gate. -/
inductive RiskReason where
  | allow
  | dailyLossLimit
  | maxPositions
  | strategyInactive
  | unknownStrategy
deriving DecidableEq

/-- `PositionManager.check_risk_limits` with its first failing check named:
the function body is the same two-test `if` chain
(position_manager.py:364-390), returning which test failed instead of a
bare boolean. -/
def riskLimitsFirstFailure (pm : PositionManager) : RiskReason :=
  if |pm.daily_pnl| ≥ pm.max_daily_loss then .dailyLossLimit
  else if (pm.positions.length : ℤ) ≥ pm.max_positions then .maxPositions
  else .allow

/-- `PortfolioManager.can_open_position` with its first failing check named:
the same three-test chain (portfolio_manager.py:96-109) — unknown strategy,
then inactivity, then the per-strategy position limit. -/
def canOpenFirstFailure (m : PortfolioManager) (strategy_name : String) : RiskReason :=
  match lookupD m.strategy_allocations strategy_name with
  | none => .unknownStrategy
  | some a =>
    if a.is_active = false then .strategyInactive
    else if a.current_positions ≥ a.max_positions then .maxPositions
    else .allow

/-- Modelled from the spec (refinement comparison only, not from the source):
the admission-control check order the specification claims — daily loss
limit first, then the strategy's position limit, then inactivity. -/
def authorizeClaimOrder (pm : PositionManager) (m : PortfolioManager)
    (strategy_name : String) : RiskReason :=
  if |pm.daily_pnl| ≥ pm.max_daily_loss then .dailyLossLimit
  else
    match lookupD m.strategy_allocations strategy_name with
    | none => .unknownStrategy
    | some a =>
      if a.current_positions ≥ a.max_positions then .maxPositions
      else if a.is_active = false then .strategyInactive
      else .allow

/-- Modelled from the spec (refinement comparison only, not from the source):
the position-sizing formula the specification states, with the risk amount
capped at `allocatedCapital × 0.01` before dividing by the stop distance. -/
def specPositionSize (m : PortfolioManager) (strategy_name : String)
    (entry_price stop_loss : ℚ) : ℤ :=
  match lookupD m.strategy_allocations strategy_name with
  | none => 0
  | some a =>
    let sl_distance := |entry_price - stop_loss|
    if sl_distance = 0 then 0
    else
      min ⌊min a.max_risk_per_trade (a.allocated_capital * (1 / 100)) / sl_distance⌋
        ⌊a.allocated_capital / entry_price⌋

/-! ### Dictionary lemmas -/

theorem lookupD_insertD_self {κ α : Type} [DecidableEq κ] (m : List (κ × α)) (k : κ)
    (v : α) : lookupD (insertD m k v) k = some v := by
  induction m with
  | nil => simp [insertD, lookupD]
  | cons q rest ih =>
    obtain ⟨k', v'⟩ := q
    by_cases hk : k' = k
    · simp [insertD, hk, lookupD]
    · simp [insertD, hk, lookupD, ih]

theorem eraseD_map_sum {κ α : Type} [DecidableEq κ] (f : α → ℚ) (m : List (κ × α))
    (k : κ) (v : α) (h : lookupD m k = some v) :
    ((eraseD m k).map (fun p => f p.2)).sum = (m.map (fun p => f p.2)).sum - f v := by
  induction m with
  | nil => simp [lookupD] at h
  | cons q rest ih =>
    obtain ⟨k', v'⟩ := q
    by_cases hk : k' = k
    · rw [lookupD, if_pos hk] at h
      obtain rfl : v' = v := by simpa using h
      simp [eraseD, hk]
    · rw [lookupD, if_neg hk] at h
      simp only [eraseD, if_neg hk, List.map_cons, List.sum_cons, ih h]
      ring

theorem insertD_map_sum_le {κ α : Type} [DecidableEq κ] (f : α → ℚ) (m : List (κ × α))
    (k : κ) (v : α) (hnn : ∀ p ∈ m, 0 ≤ f p.2) :
    ((insertD m k v).map (fun p => f p.2)).sum ≤ (m.map (fun p => f p.2)).sum + f v := by
  induction m with
  | nil => simp [insertD]
  | cons q rest ih =>
    obtain ⟨k', v'⟩ := q
    by_cases hk : k' = k
    · simp only [insertD, if_pos hk, List.map_cons, List.sum_cons]
      have h0 : 0 ≤ f v' := hnn ⟨k', v'⟩ (by simp)
      linarith
    · simp only [insertD, if_neg hk, List.map_cons, List.sum_cons]
      have h := ih (fun p hp => hnn p (by simp [hp]))
      linarith

theorem insertD_forall {κ α : Type} [DecidableEq κ] (P : α → Prop) (m : List (κ × α))
    (k : κ) (v : α) (hm : ∀ p ∈ m, P p.2) (hv : P v) :
    ∀ p ∈ insertD m k v, P p.2 := by
  induction m with
  | nil => simpa [insertD]
  | cons q rest ih =>
    obtain ⟨k', v'⟩ := q
    by_cases hk : k' = k
    · simp only [insertD, if_pos hk]
      intro p hp
      rcases List.mem_cons.mp hp with h | h
      · subst h; exact hv
      · exact hm p (by simp [h])
    · simp only [insertD, if_neg hk]
      intro p hp
      rcases List.mem_cons.mp hp with h | h
      · subst h; exact hm ⟨k', v'⟩ (by simp)
      · exact ih (fun x hx => hm x (by simp [hx])) p h

/-! ### C1 — capital conservation -/

theorem conservation_mk (c : ℚ) : conservation (mkPortfolioManager c) := by
  simp [conservation, mkPortfolioManager, openCost, realizedPnl]

theorem addStrategy_conservation (m : PortfolioManager) (n : String) (pct : ℚ)
    (mp : ℤ) (rp : ℚ) (h : conservation m) :
    conservation (addStrategy m n pct mp rp) := by
  unfold addStrategy
  split
  · exact h
  · simpa [conservation, openCost, realizedPnl] using h

theorem openPosition_conservation (m : PortfolioManager) (n s : String) (q : ℤ)
    (e sl t : ℚ) (h : conservation m) :
    conservation (openPosition m n s q e sl t).2 := by
  unfold openPosition
  by_cases hc : canOpenPosition m n = false
  · simpa [hc] using h
  · rw [if_neg hc]
    unfold conservation openCost realizedPnl at h ⊢
    simp only [List.map_cons, List.sum_cons]
    ring_nf
    linarith

theorem closePosition_conservation (m : PortfolioManager) (pid : ℕ) (x : ℚ)
    (h : conservation m) : conservation (closePosition m pid x).2 := by
  unfold closePosition
  cases hl : lookupD m.active_positions pid with
  | none => simpa using h
  | some position =>
    simp only []
    unfold conservation openCost realizedPnl at h ⊢
    simp only [List.map_append, List.sum_append, List.map_cons, List.sum_cons,
      List.map_nil, List.sum_nil]
    rw [eraseD_map_sum (fun p => p.entry_price * (p.quantity : ℚ)) m.active_positions
      pid position hl]
    ring_nf
    linarith

theorem stepOp_conservation (m : PortfolioManager) (op : PortfolioOp)
    (h : conservation m) : conservation (stepOp m op) := by
  cases op with
  | addStrat n pct mp rp => exact addStrategy_conservation m n pct mp rp h
  | openPos n s q e sl t => exact openPosition_conservation m n s q e sl t h
  | closePos pid x => exact closePosition_conservation m pid x h

theorem runOps_conservation (ops : List PortfolioOp) (m : PortfolioManager)
    (h : conservation m) : conservation (runOps m ops) := by
  induction ops generalizing m with
  | nil => exact h
  | cons op rest ih => exact ih (stepOp m op) (stepOp_conservation m op h)

/-- C1.  Capital conservation: starting from a freshly constructed
`PortfolioManager`, after every sequence of `add_strategy` / `open_position` /
`close_position` calls (failed calls leave the state unchanged, so this covers
every sequence of successful opens and closes, after each operation),
`available_capital + Σ(entry_price × quantity over active positions)
 = total_capital + Σ(pnl over closed positions)`. -/
theorem capital_conservation (c : ℚ) (ops : List PortfolioOp) :
    conservation (runOps (mkPortfolioManager c) ops) :=
  runOps_conservation ops (mkPortfolioManager c) (conservation_mk c)

/-! ### C2 — no capital-sufficiency check in `open_position` -/

/-- C2, counterexample.  With total capital 100 and strategy "A" allocated
100%, opening 10 units at price 50 books a cost of 500 > 100 available — yet
`open_position` succeeds (it returns a position id, not an
`INSUFFICIENT_CAPITAL` error, which the code nowhere defines), a position is
created, and `available_capital` drops to −400 < 0. -/
theorem open_insufficient_capital_cex :
    (50 * (10 : ℚ) > (addStrategy (mkPortfolioManager 100) "A" 100 3 1).available_capital) ∧
    ((openPosition (addStrategy (mkPortfolioManager 100) "A" 100 3 1)
        "A" "X" 10 50 40 60).1 = some 0) ∧
    ((openPosition (addStrategy (mkPortfolioManager 100) "A" 100 3 1)
        "A" "X" 10 50 40 60).2.active_positions.length = 1) ∧
    ((openPosition (addStrategy (mkPortfolioManager 100) "A" 100 3 1)
        "A" "X" 10 50 40 60).2.available_capital = -400) ∧
    ((-400 : ℚ) < 0) := by
  norm_num [openPosition, addStrategy, canOpenPosition, mkPortfolioManager,
    insertD, lookupD, updateD]

/-- C2, amended.  `open_position` performs no capital-sufficiency check at
all: whenever `can_open_position` passes, the open succeeds and debits
`entry_price × quantity` from `available_capital` unconditionally — even when
that cost exceeds the available capital, which can therefore go negative
through Open. -/
theorem open_no_capital_check (m : PortfolioManager) (n s : String) (q : ℤ)
    (e sl t : ℚ) (h : canOpenPosition m n = true) :
    (openPosition m n s q e sl t).1 = some m.next_position_id ∧
    (openPosition m n s q e sl t).2.available_capital
      = m.available_capital - e * (q : ℚ) ∧
    (openPosition m n s q e sl t).2.active_positions.length
      = m.active_positions.length + 1 := by
  unfold openPosition
  simp [h]

/-- Witness for C2's amended theorem at the counterexample input. -/
theorem open_no_capital_check_witness :
    (openPosition (addStrategy (mkPortfolioManager 100) "A" 100 3 1)
        "A" "X" 10 50 40 60).2.available_capital
      = (addStrategy (mkPortfolioManager 100) "A" 100 3 1).available_capital
          - 50 * ((10 : ℤ) : ℚ) :=
  (open_no_capital_check (addStrategy (mkPortfolioManager 100) "A" 100 3 1)
    "A" "X" 10 50 40 60 (by decide)).2.1

/-! ### C3 — the allocation bound needs percentages summing to at most 100 -/

/-- C3, counterexample.  `add_strategy` validates each percentage against
`(0, 100]` but never checks the running total: registering "A" at 100% and
then "B" at 100% of a 100-capital portfolio leaves
`Σ allocated_capital = 200 > 100 = total_capital`. -/
theorem allocation_bound_cex :
    allocSum (runAdds (mkPortfolioManager 100)
        [⟨"A", 100, 3, 1⟩, ⟨"B", 100, 3, 1⟩]) = 200 ∧
    ¬ allocSum (runAdds (mkPortfolioManager 100)
        [⟨"A", 100, 3, 1⟩, ⟨"B", 100, 3, 1⟩]) ≤ (mkPortfolioManager 100).total_capital := by
  norm_num [allocSum, runAdds, addStrategy, mkPortfolioManager, insertD,
    (by decide : ("A" : String) ≠ "B")]

theorem addStrategy_total_capital (m : PortfolioManager) (n : String) (pct : ℚ)
    (mp : ℤ) (rp : ℚ) : (addStrategy m n pct mp rp).total_capital = m.total_capital := by
  unfold addStrategy
  split <;> rfl

theorem validPctSum_nonneg (regs : List AddReq) : 0 ≤ validPctSum regs := by
  induction regs with
  | nil => simp [validPctSum]
  | cons r rest ih =>
    unfold validPctSum
    split
    · rename_i h
      linarith [h.1]
    · linarith

/-- The `StrategyAllocation` record `add_strategy` builds for an accepted
request. -/
def freshAllocation (tc : ℚ) (n : String) (pct : ℚ) (mp : ℤ) (rp : ℚ) :
    StrategyAllocation :=
  { strategy_name := n
    allocated_capital := tc * (pct / 100)
    max_risk_per_trade := tc * (pct / 100) * (rp / 100)
    max_positions := mp
    current_positions := 0
    current_pnl := 0
    total_trades := 0
    winning_trades := 0
    is_active := true }

theorem addStrategy_allocations_accepted (m : PortfolioManager) (n : String) (pct : ℚ)
    (mp : ℤ) (rp : ℚ) (h : ¬ (pct ≤ 0 ∨ pct > 100)) :
    (addStrategy m n pct mp rp).strategy_allocations
      = insertD m.strategy_allocations n (freshAllocation m.total_capital n pct mp rp) := by
  unfold addStrategy freshAllocation
  rw [if_neg h]

theorem addStrategy_rejected (m : PortfolioManager) (n : String) (pct : ℚ)
    (mp : ℤ) (rp : ℚ) (h : pct ≤ 0 ∨ pct > 100) :
    addStrategy m n pct mp rp = m := by
  unfold addStrategy
  rw [if_pos h]

theorem runAdds_allocSum_le (regs : List AddReq) (m : PortfolioManager)
    (hnn : ∀ p ∈ m.strategy_allocations, 0 ≤ p.2.allocated_capital)
    (htc : 0 ≤ m.total_capital) :
    allocSum (runAdds m regs) ≤ allocSum m + m.total_capital * validPctSum regs / 100 := by
  induction regs generalizing m with
  | nil =>
    simp [runAdds, validPctSum]
  | cons r rest ih =>
    show allocSum (runAdds (addStrategy m r.strategy_name r.allocation_pct
        r.max_positions r.risk_per_trade_pct) rest)
      ≤ allocSum m + m.total_capital * validPctSum (r :: rest) / 100
    by_cases hv : 0 < r.allocation_pct ∧ r.allocation_pct ≤ 100
    · have hguard : ¬ (r.allocation_pct ≤ 0 ∨ r.allocation_pct > 100) := by
        push_neg
        exact ⟨hv.1, hv.2⟩
      have hval : 0 ≤ m.total_capital * (r.allocation_pct / 100) := by
        have h1 := hv.1
        positivity
      have halloc := addStrategy_allocations_accepted m r.strategy_name r.allocation_pct
        r.max_positions r.risk_per_trade_pct hguard
      have hnn' : ∀ p ∈ (addStrategy m r.strategy_name r.allocation_pct r.max_positions
          r.risk_per_trade_pct).strategy_allocations, 0 ≤ p.2.allocated_capital := by
        rw [halloc]
        exact insertD_forall (fun a : StrategyAllocation => 0 ≤ a.allocated_capital)
          _ _ _ hnn hval
      have htc' : (addStrategy m r.strategy_name r.allocation_pct r.max_positions
          r.risk_per_trade_pct).total_capital = m.total_capital :=
        addStrategy_total_capital m _ _ _ _
      have hstep : allocSum (addStrategy m r.strategy_name r.allocation_pct r.max_positions
          r.risk_per_trade_pct) ≤ allocSum m + m.total_capital * (r.allocation_pct / 100) := by
        unfold allocSum
        rw [halloc]
        exact insertD_map_sum_le (fun a : StrategyAllocation => a.allocated_capital)
          _ _ _ hnn
      have hrest := ih (addStrategy m r.strategy_name r.allocation_pct r.max_positions
        r.risk_per_trade_pct) hnn' (htc' ▸ htc)
      rw [htc'] at hrest
      have hvps : validPctSum (r :: rest)
          = r.allocation_pct + validPctSum rest := by
        simp only [validPctSum]
        rw [if_pos hv]
      rw [hvps]
      have hfinal : allocSum m + m.total_capital * (r.allocation_pct / 100)
          + m.total_capital * validPctSum rest / 100
          = allocSum m + m.total_capital * (r.allocation_pct + validPctSum rest) / 100 := by
        ring
      linarith
    · have hguard : r.allocation_pct ≤ 0 ∨ r.allocation_pct > 100 := by
        push_neg at hv
        by_cases h0 : r.allocation_pct ≤ 0
        · exact Or.inl h0
        · exact Or.inr (hv (lt_of_not_ge h0))
      rw [addStrategy_rejected m _ _ _ _ hguard]
      have hvps : validPctSum (r :: rest) = 0 + validPctSum rest := by
        simp only [validPctSum]
        rw [if_neg hv]
      rw [hvps]
      simpa using ih m hnn htc

/-- C3, amended.  `Σ allocated_capital ≤ total_capital` holds only under the
extra premise that the accepted registrations' allocation percentages sum to
at most 100 (and the total capital is non-negative); `add_strategy` itself
enforces no bound on the running sum, as the counterexample shows. -/
theorem allocation_bound_amended (c : ℚ) (regs : List AddReq)
    (hc : 0 ≤ c) (hsum : validPctSum regs ≤ 100) :
    allocSum (runAdds (mkPortfolioManager c) regs) ≤ c := by
  have h := runAdds_allocSum_le regs (mkPortfolioManager c)
    (by simp [mkPortfolioManager]) (by simpa [mkPortfolioManager] using hc)
  have h0 : allocSum (mkPortfolioManager c) = 0 := by
    simp [allocSum, mkPortfolioManager]
  have htc : (mkPortfolioManager c).total_capital = c := rfl
  rw [h0, htc] at h
  have hmul : c * validPctSum regs / 100 ≤ c := by
    have hn := validPctSum_nonneg regs
    nlinarith
  linarith

/-- Witness for C3's amended theorem: the readme scenario 30/25/25/20 stays
within the bound. -/
theorem allocation_bound_amended_witness :
    allocSum (runAdds (mkPortfolioManager 500000)
        [⟨"EMA Crossover", 30, 2, 1⟩, ⟨"RSI Reversal", 25, 3, 1⟩,
         ⟨"Bollinger Breakout", 25, 2, 1⟩, ⟨"MACD Momentum", 20, 2, 1⟩]) ≤ 500000 :=
  allocation_bound_amended 500000
    [⟨"EMA Crossover", 30, 2, 1⟩, ⟨"RSI Reversal", 25, 3, 1⟩,
     ⟨"Bollinger Breakout", 25, 2, 1⟩, ⟨"MACD Momentum", 20, 2, 1⟩]
    (by norm_num) (by norm_num [validPctSum])

/-! ### C4 — admission-control checks: what the code actually tests, in which
order -/

/-- An inactive strategy that also sits at its position limit — the shape of
state on which the claimed and the actual check order disagree. -/
def inactiveFullAlloc : StrategyAllocation :=
  { strategy_name := "A", allocated_capital := 1000, max_risk_per_trade := 10,
    max_positions := 3, current_positions := 5, current_pnl := 0,
    total_trades := 5, winning_trades := 2, is_active := false }

/-- A portfolio whose only strategy is `inactiveFullAlloc`. -/
def inactiveFullPortfolio : PortfolioManager :=
  { mkPortfolioManager 1000 with strategy_allocations := [("A", inactiveFullAlloc)] }

/-- C4, counterexample.  For a strategy that is both inactive and at its
position limit (daily loss within bounds), the claimed check order would deny
with MAX_POSITIONS (position limit tested before inactivity), but
`can_open_position`'s chain tests inactivity first, so the first failing
check is STRATEGY_INACTIVE.  (Moreover `check_risk_limits`, the only place a
daily-loss test exists, never consults strategy activity, and both functions
return bare booleans rather than reason codes.) -/
theorem risk_check_order_cex :
    canOpenFirstFailure inactiveFullPortfolio "A" = RiskReason.strategyInactive ∧
    authorizeClaimOrder (mkPositionManager 100 10) inactiveFullPortfolio "A"
      = RiskReason.maxPositions ∧
    RiskReason.strategyInactive ≠ RiskReason.maxPositions := by
  refine ⟨?_, ?_, by decide⟩
  · norm_num [canOpenFirstFailure, inactiveFullPortfolio, inactiveFullAlloc,
      mkPortfolioManager, lookupD]
  · norm_num [authorizeClaimOrder, inactiveFullPortfolio, inactiveFullAlloc,
      mkPositionManager, mkPortfolioManager, lookupD]

/-- C4, amended.  The admission checks are split over two boolean functions
with no reason codes.  `PositionManager.check_risk_limits` tests the daily
loss limit (`|daily_pnl| ≥ max_daily_loss`) first and the *global* open
position count against `max_positions` second; `PortfolioManager.
can_open_position` tests strategy existence, then inactivity, then the
per-strategy position limit — inactivity before the position limit, the
reverse of the claimed order.  The reason-tracking versions agree with the
booleans: a check passes iff its first failing check is `allow`. -/
theorem risk_checks_amended :
    (∀ pm : PositionManager,
      (checkRiskLimits pm = true ↔ riskLimitsFirstFailure pm = RiskReason.allow) ∧
      (|pm.daily_pnl| ≥ pm.max_daily_loss →
        riskLimitsFirstFailure pm = RiskReason.dailyLossLimit) ∧
      (|pm.daily_pnl| < pm.max_daily_loss → (pm.positions.length : ℤ) ≥ pm.max_positions →
        riskLimitsFirstFailure pm = RiskReason.maxPositions)) ∧
    (∀ (m : PortfolioManager) (n : String),
      (canOpenPosition m n = true ↔ canOpenFirstFailure m n = RiskReason.allow) ∧
      (lookupD m.strategy_allocations n = none →
        canOpenFirstFailure m n = RiskReason.unknownStrategy) ∧
      ∀ a : StrategyAllocation, lookupD m.strategy_allocations n = some a →
        (a.is_active = false → canOpenFirstFailure m n = RiskReason.strategyInactive) ∧
        (a.is_active = true → a.current_positions ≥ a.max_positions →
          canOpenFirstFailure m n = RiskReason.maxPositions)) := by
  constructor
  · intro pm
    refine ⟨?_, ?_, ?_⟩
    · unfold checkRiskLimits riskLimitsFirstFailure
      split
      · simp
      · split <;> simp
    · intro h
      unfold riskLimitsFirstFailure
      rw [if_pos h]
    · intro h1 h2
      unfold riskLimitsFirstFailure
      rw [if_neg (not_le.mpr h1), if_pos h2]
  · intro m n
    refine ⟨?_, ?_, ?_⟩
    · unfold canOpenPosition canOpenFirstFailure
      cases lookupD m.strategy_allocations n with
      | none => simp
      | some a =>
        by_cases hA : a.is_active = false
        · simp [hA]
        · by_cases hP : a.current_positions ≥ a.max_positions
          · simp [hA, hP]
          · simp [hA, hP]
    · intro h
      unfold canOpenFirstFailure
      rw [h]
    · intro a ha
      unfold canOpenFirstFailure
      simp only [ha]
      constructor
      · intro hA
        rw [if_pos hA]
      · intro hA hP
        rw [if_neg (by simp [hA]), if_pos hP]

/-- Witness for C4's amended theorem: a position manager over its daily-loss
limit fails on the daily-loss check, and an inactive strategy fails on the
inactivity check. -/
theorem risk_checks_amended_witness :
    riskLimitsFirstFailure
      { mkPositionManager 100 10 with daily_pnl := -150 } = RiskReason.dailyLossLimit ∧
    canOpenFirstFailure inactiveFullPortfolio "A" = RiskReason.strategyInactive := by
  constructor
  · exact (risk_checks_amended.1 _).2.1 (by norm_num [mkPositionManager])
  · exact ((risk_checks_amended.2 inactiveFullPortfolio "A").2.2 inactiveFullAlloc
      (by decide)).1 (by decide)

/-! ### C5 — stop precedence on a simultaneous stop/target breach -/

/-- The mark-to-market record update performed at the top of
`PositionManager.update_price`, before the stop/target branches. -/
def markPos (position : BridgePosition) (price : ℚ) : BridgePosition :=
  let pnl :=
    if position.order_type = "BUY" then
      (price - position.entry_price) * (position.quantity : ℚ)
    else
      (position.entry_price - price) * (position.quantity : ℚ)
  { position with
    current_price := price
    pnl := pnl
    pnl_percent := pnl / (position.entry_price * (position.quantity : ℚ)) * 100 }

theorem updatePrice_eq (pm : PositionManager) (symbol : String) (price : ℚ)
    (position : BridgePosition) (h : lookupD pm.positions symbol = some position) :
    updatePrice pm symbol price =
      (if slHit (markPos position price) then
        closePositionB
          { pm with positions := insertD pm.positions symbol (markPos position price) }
          symbol price "STOP_LOSS"
      else if targetHit (markPos position price) then
        closePositionB
          { pm with positions := insertD pm.positions symbol (markPos position price) }
          symbol price "TARGET"
      else
        { pm with positions := insertD pm.positions symbol (markPos position price) }) := by
  unfold updatePrice markPos
  rw [h]

theorem closePositionB_closed_positions (pm : PositionManager) (symbol : String)
    (x : ℚ) (reason : String) (position : BridgePosition)
    (h : lookupD pm.positions symbol = some position) :
    ∃ c : BridgePosition,
      (closePositionB pm symbol x reason).closed_positions
        = pm.closed_positions ++ [c] ∧
      c.exit_reason = some reason ∧ c.exit_price = some x := by
  unfold closePositionB
  rw [h]
  exact ⟨_, rfl, rfl, rfl⟩

/-- C5.  If a tick satisfies both the stop condition and the target
condition, the code closes with the stop reason: in
`PortfolioManager.check_stop_loss_targets` the target test is the `elif` of
the stop test, and in `PositionManager.update_price` (LONG/"BUY" positions
with a set, non-zero stop) the stop branch closes and returns before the
target branch is reached. -/
theorem stop_precedence :
    (∀ position : PortfolioPosition,
      position.current_price ≤ position.stop_loss →
      position.current_price ≥ position.target →
      stopTargetCheck position = some (position.current_price, "Stop Loss")) ∧
    (∀ (pm : PositionManager) (symbol : String) (price : ℚ) (position : BridgePosition)
        (sl t : ℚ),
      lookupD pm.positions symbol = some position →
      position.order_type = "BUY" →
      position.stop_loss = some sl → sl ≠ 0 → price ≤ sl →
      position.target = some t → t ≠ 0 → price ≥ t →
      ∃ c : BridgePosition,
        (updatePrice pm symbol price).closed_positions = pm.closed_positions ++ [c] ∧
        c.exit_reason = some "STOP_LOSS" ∧ c.exit_price = some price) := by
  constructor
  · intro position h1 h2
    unfold stopTargetCheck
    rw [if_pos h1]
  · intro pm symbol price position sl t hlook hbuy hsl hslnz hple ht htnz hge
    have hfields : (markPos position price).stop_loss = position.stop_loss ∧
        (markPos position price).order_type = position.order_type ∧
        (markPos position price).current_price = price := by
      unfold markPos
      exact ⟨rfl, rfl, rfl⟩
    have hhit : slHit (markPos position price) = true := by
      unfold slHit
      rw [hfields.1, hsl]
      simp only [if_neg hslnz, hfields.2.1]
      rw [if_pos hbuy, hfields.2.2]
      exact decide_eq_true hple
    obtain ⟨c, hc1, hc2, hc3⟩ := closePositionB_closed_positions
      { pm with positions := insertD pm.positions symbol (markPos position price) }
      symbol price "STOP_LOSS" (markPos position price)
      (lookupD_insertD_self pm.positions symbol (markPos position price))
    refine ⟨c, ?_, hc2, hc3⟩
    rw [updatePrice_eq pm symbol price position hlook, if_pos hhit]
    exact hc1

/-- A portfolio position breaching stop (100) and target (50) at once at
price 80. -/
def bothBreachedPos : PortfolioPosition :=
  { position_id := 0, strategy_name := "s", symbol := "SYM", quantity := 10,
    entry_price := 100, current_price := 80, stop_loss := 100, target := 50,
    pnl := 0, pnl_pct := 0 }

/-- A bridge position (LONG) with stop 90 and target 80, both satisfied at
price 85. -/
def bothBreachedBridgePos : BridgePosition :=
  { symbol := "N", quantity := 10, entry_price := 100, current_price := 100,
    order_type := "BUY", stop_loss := some 90, target := some 80,
    pnl := 0, pnl_percent := 0, status := "OPEN",
    exit_price := none, exit_reason := none }

/-- Witness for C5 at concrete both-breached positions. -/
theorem stop_precedence_witness :
    stopTargetCheck bothBreachedPos = some (bothBreachedPos.current_price, "Stop Loss") ∧
    ∃ c : BridgePosition,
      (updatePrice { mkPositionManager 100 10 with positions := [("N", bothBreachedBridgePos)] }
          "N" 85).closed_positions
        = ({ mkPositionManager 100 10 with
              positions := [("N", bothBreachedBridgePos)] } : PositionManager).closed_positions
            ++ [c] ∧
      c.exit_reason = some "STOP_LOSS" ∧ c.exit_price = some 85 := by
  constructor
  · exact stop_precedence.1 bothBreachedPos (by norm_num [bothBreachedPos])
      (by norm_num [bothBreachedPos])
  · exact stop_precedence.2 _ "N" 85 bothBreachedBridgePos 90 80
      (by decide) (by decide) (by decide) (by norm_num) (by norm_num)
      (by decide) (by norm_num) (by norm_num)

/-! ### C6 — target exits execute at the tick price, not the target price -/

/-- C6, counterexample.  Scenario B run through
`PositionManager.add_position` / `update_price`: LONG 50 @ 23000, stop 22800,
target 23400, tick 23450.  The position auto-closes with reason TARGET but
the close executes at the tick price 23450, so the realized P&L is
(23450 − 23000) × 50 = 22500, not the claimed (23400 − 23000) × 50 = 20000. -/
theorem target_exit_price_cex :
    ((updatePrice
        (addPosition (mkPositionManager (5/2) 2) "NIFTY" 50 23000 "BUY"
          (some 22800) (some 23400))
        "NIFTY" 23450).closed_positions.map (fun p => p.pnl)) = [22500] ∧
    ¬ ((22500 : ℚ) = (23400 - 23000) * 50) := by
  constructor
  · norm_num [updatePrice, addPosition, mkPositionManager, lookupD, insertD,
      slHit, targetHit, closePositionB, updateStatistics, eraseD]
  · norm_num

/-- C6, amended.  The tick at 23450 auto-closes the position with reason
TARGET, but at the tick price: exit price 23450 and realized P&L
(23450 − 23000) × 50 = 22500.  The same holds on the portfolio-ledger path:
`check_stop_loss_targets` reports the position for closure at its *current*
price 23450, and closing there realizes 22500. -/
theorem target_exit_price_amended :
    ((updatePrice
        (addPosition (mkPositionManager (5/2) 2) "NIFTY" 50 23000 "BUY"
          (some 22800) (some 23400))
        "NIFTY" 23450).closed_positions.map
          (fun p => (p.exit_reason, p.exit_price, p.pnl)))
      = [(some "TARGET", some 23450, 22500)] ∧
    (updatePrice
        (addPosition (mkPositionManager (5/2) 2) "NIFTY" 50 23000 "BUY"
          (some 22800) (some 23400))
        "NIFTY" 23450).positions = [] ∧
    checkStopLossTargets
      (updatePositions
        ((openPosition (addStrategy (mkPortfolioManager 500000) "EMA" 30 2 1)
            "EMA" "NIFTY" 50 23000 22800 23400).2)
        [("NIFTY", 23450)]) = [(0, 23450, "Target")] ∧
    (closePosition
      (updatePositions
        ((openPosition (addStrategy (mkPortfolioManager 500000) "EMA" 30 2 1)
            "EMA" "NIFTY" 50 23000 22800 23400).2)
        [("NIFTY", 23450)]) 0 23450).1 = some 22500 := by
  refine ⟨?_, ?_, ?_, ?_⟩
  · norm_num [updatePrice, addPosition, mkPositionManager, lookupD, insertD,
      slHit, targetHit, closePositionB, updateStatistics, eraseD]
  · norm_num [updatePrice, addPosition, mkPositionManager, lookupD, insertD,
      slHit, targetHit, closePositionB, updateStatistics, eraseD]
  · norm_num [checkStopLossTargets, stopTargetCheck, updatePositions, openPosition,
      canOpenPosition, addStrategy, mkPortfolioManager, lookupD, insertD, updateD,
      List.filterMap_cons, Option.map]
  · norm_num [closePosition, checkStopLossTargets, stopTargetCheck, updatePositions,
      openPosition, canOpenPosition, addStrategy, mkPortfolioManager, lookupD,
      insertD, updateD, eraseD]

/-! ### C7 — slice conservation in the execution engine -/

theorem sliceQtySum_append (a b : List OrderSlice) :
    sliceQtySum (a ++ b) = sliceQtySum a + sliceQtySum b := by
  unfold sliceQtySum
  rw [List.map_append, List.sum_append]

theorem mkResult_filled (q : ℕ) (price : ℚ) (slices : List OrderSlice) :
    (mkResult q price slices).filled_quantity = sliceQtySum slices := rfl

theorem mkResult_slices (q : ℕ) (price : ℚ) (slices : List OrderSlice) :
    (mkResult q price slices).slices = slices := rfl

theorem sum_map_add_nat {α : Type} (l : List α) (f g : α → ℕ) :
    (l.map (fun i => f i + g i)).sum = (l.map f).sum + (l.map g).sum := by
  induction l with
  | nil => rfl
  | cons x xs ih =>
    simp only [List.map_cons, List.sum_cons, ih]
    omega

theorem sum_map_const_range (n c : ℕ) :
    ((List.range n).map (fun _ => c)).sum = n * c := by
  induction n with
  | zero => simp
  | succ n ih =>
    rw [List.range_succ, List.map_append, List.sum_append, ih]
    simp [Nat.succ_mul]

theorem sum_map_ite_range (n r : ℕ) :
    ((List.range n).map (fun i => if i < r then 1 else 0)).sum = min r n := by
  induction n with
  | zero => simp
  | succ n ih =>
    rw [List.range_succ, List.map_append, List.sum_append, ih]
    simp only [List.map_cons, List.map_nil, List.sum_cons, List.sum_nil]
    split <;> omega

/-- The TWAP/ICEBERG quantity split is exact: the `num_slices` even slices
plus the remainder units handed to the earliest slices sum to the requested
quantity. -/
theorem evenSliceQty_sum (quantity num_slices : ℕ) (h : 0 < num_slices) :
    ((List.range num_slices).map (fun i => evenSliceQty quantity num_slices i)).sum
      = quantity := by
  unfold evenSliceQty
  rw [sum_map_add_nat (List.range num_slices) (fun _ => quantity / num_slices)
    (fun i => if i < quantity % num_slices then 1 else 0)]
  rw [sum_map_const_range, sum_map_ite_range]
  have h1 := Nat.div_add_mod quantity num_slices
  have h2 := Nat.mod_lt quantity h
  omega

theorem executeTwap_qtySum (q n : ℕ) (side : String) (price : ℚ) (noise : ℕ → ℚ) :
    sliceQtySum (executeTwap q n side price noise).slices
      = ((List.range n).map (fun i => evenSliceQty q n i)).sum := by
  unfold executeTwap
  rw [mkResult_slices]
  unfold sliceQtySum
  rw [List.map_map]
  rfl

theorem executeIceberg_qtySum (q : ℕ) (vq : Option ℕ) (n : ℕ) (side : String)
    (price : ℚ) (noise : ℕ → ℚ) :
    sliceQtySum (executeIceberg q vq n side price noise).slices
      = ((List.range n).map (fun i => evenSliceQty q n i)).sum := by
  unfold executeIceberg
  rw [mkResult_slices]
  unfold sliceQtySum
  rw [List.map_map]
  rfl

theorem vwapRawSlicesFrom_qtySum (q : ℕ) (side : String) (price : ℚ) (noise : ℕ → ℚ)
    (pcts : List ℚ) (i : ℕ) :
    sliceQtySum (vwapRawSlicesFrom q side price noise i pcts)
      = (pcts.map (fun p => (pyInt ((q : ℚ) * p)).toNat)).sum := by
  induction pcts generalizing i with
  | nil => rfl
  | cons p rest ih =>
    show sliceQtySum ((if (pyInt ((q : ℚ) * p)).toNat = 0 then [] else
        [{ slice_num := i + 1
           quantity := (pyInt ((q : ℚ) * p)).toNat
           price := if side = "BUY" then
               price * (1 + noise i) * (1 + ((pyInt ((q : ℚ) * p)).toNat : ℚ) / (q : ℚ) * (1 / 1000))
             else
               price * (1 + noise i) * (1 - ((pyInt ((q : ℚ) * p)).toNat : ℚ) / (q : ℚ) * (1 / 1000))
           visible_quantity := none }])
        ++ vwapRawSlicesFrom q side price noise (i + 1) rest)
      = ((p :: rest).map (fun p => (pyInt ((q : ℚ) * p)).toNat)).sum
    rw [sliceQtySum_append, ih (i + 1)]
    simp only [List.map_cons, List.sum_cons]
    by_cases h : (pyInt ((q : ℚ) * p)).toNat = 0
    · rw [if_pos h]
      simp [sliceQtySum, h]
    · rw [if_neg h]
      simp [sliceQtySum]

/-- Python `int(quantity * pct)` for a non-negative percentage never exceeds
`quantity * pct`. -/
theorem truncQty_le (q : ℕ) (p : ℚ) (hp : 0 ≤ p) :
    (((pyInt ((q : ℚ) * p)).toNat : ℚ)) ≤ (q : ℚ) * p := by
  have hx : 0 ≤ (q : ℚ) * p := by positivity
  unfold pyInt
  rw [if_neg (not_lt.mpr hx)]
  have h1 : (0 : ℤ) ≤ ⌊(q : ℚ) * p⌋ := Int.floor_nonneg.mpr hx
  have h2 : ((⌊(q : ℚ) * p⌋ : ℤ) : ℚ) ≤ (q : ℚ) * p := Int.floor_le _
  have h3 : ((⌊(q : ℚ) * p⌋.toNat : ℤ) : ℚ) ≤ (q : ℚ) * p := by
    rw [Int.toNat_of_nonneg h1]
    exact h2
  exact_mod_cast h3

theorem truncQtySum_le (q : ℕ) (pcts : List ℚ) (hnn : ∀ p ∈ pcts, 0 ≤ p) :
    (((pcts.map (fun p => (pyInt ((q : ℚ) * p)).toNat)).sum : ℕ) : ℚ)
      ≤ (q : ℚ) * pcts.sum := by
  induction pcts with
  | nil => simp
  | cons p rest ih =>
    have h1 := truncQty_le q p (hnn p (by simp))
    have h2 := ih (fun x hx => hnn x (by simp [hx]))
    simp only [List.map_cons, List.sum_cons, Nat.cast_add, mul_add]
    linarith

theorem list_sum_map_div (l : List ℚ) (c : ℚ) :
    (l.map (fun x => x / c)).sum = l.sum / c := by
  induction l with
  | nil => simp
  | cons x xs ih =>
    simp only [List.map_cons, List.sum_cons, ih]
    rw [add_div]

/-- The volume distribution of `execute_vwap` is non-negative and sums to at
most 1 (exactly 1 when at least one slice is planned), given a well-formed
history: empty (equal-weight fallback) or at least `num_slices` entries of
non-negative volume with positive recent total. -/
theorem vwapPcts_ok (n : ℕ) (volumes : List ℚ)
    (hok : volumes = [] ∨ (n ≤ volumes.length ∧ (∀ v ∈ tailN n volumes, 0 ≤ v) ∧
      0 < (tailN n volumes).sum)) :
    (∀ p ∈ vwapPcts n volumes, 0 ≤ p) ∧ (vwapPcts n volumes).sum ≤ 1 := by
  rcases hok with hemp | ⟨hlen, hnn, hpos⟩
  · subst hemp
    unfold vwapPcts
    rw [if_pos rfl]
    constructor
    · intro p hp
      rw [List.eq_of_mem_replicate hp]
      positivity
    · rw [List.sum_replicate, nsmul_eq_mul]
      rcases Nat.eq_zero_or_pos n with h0 | hn
      · subst h0
        norm_num
      · rw [mul_one_div, div_self (by exact_mod_cast hn.ne')]
  · have hne : volumes ≠ [] := by
      intro hcon
      rw [hcon] at hpos
      simp [tailN] at hpos
    unfold vwapPcts
    rw [if_neg hne]
    constructor
    · intro p hp
      obtain ⟨v, hv, rfl⟩ := List.mem_map.mp hp
      exact div_nonneg (hnn v hv) (le_of_lt hpos)
    · rw [list_sum_map_div, div_self (ne_of_gt hpos)]

theorem vwapRawSlices_qtySum_le (q : ℕ) (pcts : List ℚ) (side : String) (price : ℚ)
    (noise : ℕ → ℚ) (hnn : ∀ p ∈ pcts, 0 ≤ p) (hsum : pcts.sum ≤ 1) :
    sliceQtySum (vwapRawSlices q pcts side price noise) ≤ q := by
  unfold vwapRawSlices
  rw [vwapRawSlicesFrom_qtySum]
  have h1 := truncQtySum_le q pcts hnn
  have h2 : (q : ℚ) * pcts.sum ≤ (q : ℚ) * 1 :=
    mul_le_mul_of_nonneg_left hsum (by positivity)
  rw [mul_one] at h2
  exact_mod_cast le_trans h1 h2

theorem executeVwap_filled (q n : ℕ) (volumes : List ℚ) (side : String) (price : ℚ)
    (noise : ℕ → ℚ)
    (hok : volumes = [] ∨ (n ≤ volumes.length ∧ (∀ v ∈ tailN n volumes, 0 ≤ v) ∧
      0 < (tailN n volumes).sum)) :
    (executeVwap q n volumes side price noise).filled_quantity = q ∧
    sliceQtySum (executeVwap q n volumes side price noise).slices = q := by
  obtain ⟨hnn, hsum⟩ := vwapPcts_ok n volumes hok
  have hle := vwapRawSlices_qtySum_le q (vwapPcts n volumes) side price noise hnn hsum
  unfold executeVwap
  rw [mkResult_filled, mkResult_slices]
  by_cases hlt : sliceQtySum (vwapRawSlices q (vwapPcts n volumes) side price noise) < q
  · rw [if_pos hlt, sliceQtySum_append]
    unfold sliceQtySum at hlt hle ⊢
    simp only [List.map_cons, List.map_nil, List.sum_cons, List.sum_nil]
    omega
  · rw [if_neg hlt]
    omega

/-- C7.  Slice conservation: in every execution algorithm the produced
slices' quantities sum to `filled_quantity`; MARKET trivially fills the
requested quantity in one slice; TWAP and ICEBERG (any positive slice count)
split it exactly; VWAP's truncated volume-proportional slices never overfill
and its trailing remainder slice tops the fill up to the requested quantity
exactly.  The noise source never affects quantities (it is universally
quantified). -/
theorem slice_conservation :
    (∀ (q : ℕ) (side : String) (price : ℚ),
      (executeMarket q side price).filled_quantity = q ∧
      sliceQtySum (executeMarket q side price).slices = q) ∧
    (∀ (q n : ℕ) (side : String) (price : ℚ) (noise : ℕ → ℚ), 0 < n →
      (executeTwap q n side price noise).filled_quantity = q ∧
      sliceQtySum (executeTwap q n side price noise).slices = q) ∧
    (∀ (q : ℕ) (vq : Option ℕ) (n : ℕ) (side : String) (price : ℚ) (noise : ℕ → ℚ),
      0 < n →
      (executeIceberg q vq n side price noise).filled_quantity = q ∧
      sliceQtySum (executeIceberg q vq n side price noise).slices = q) ∧
    (∀ (q n : ℕ) (volumes : List ℚ) (side : String) (price : ℚ) (noise : ℕ → ℚ),
      volumes = [] ∨ (n ≤ volumes.length ∧ (∀ v ∈ tailN n volumes, 0 ≤ v) ∧
        0 < (tailN n volumes).sum) →
      (executeVwap q n volumes side price noise).filled_quantity = q ∧
      sliceQtySum (executeVwap q n volumes side price noise).slices = q) := by
  refine ⟨?_, ?_, ?_, ?_⟩
  · intro q side price
    constructor
    · rfl
    · simp [executeMarket, sliceQtySum]
  · intro q n side price noise hn
    have h := executeTwap_qtySum q n side price noise
    have h2 := evenSliceQty_sum q n hn
    constructor
    · rw [show (executeTwap q n side price noise).filled_quantity
          = sliceQtySum (executeTwap q n side price noise).slices from rfl, h, h2]
    · rw [h, h2]
  · intro q vq n side price noise hn
    have h := executeIceberg_qtySum q vq n side price noise
    have h2 := evenSliceQty_sum q n hn
    constructor
    · rw [show (executeIceberg q vq n side price noise).filled_quantity
          = sliceQtySum (executeIceberg q vq n side price noise).slices from rfl, h, h2]
    · rw [h, h2]
  · intro q n volumes side price noise hok
    exact executeVwap_filled q n volumes side price noise hok

/-- Witness for C7 at scenario E (TWAP 100 in 10 slices), an iceberg of 200
in 5 slices, and a VWAP of 10 against the volume history [1, 2, 3]. -/
theorem slice_conservation_witness :
    (executeMarket 50 "BUY" 23450).filled_quantity = 50 ∧
    (executeTwap 100 10 "BUY" 23450 (fun _ => 0)).filled_quantity = 100 ∧
    (executeIceberg 200 (some 40) 5 "BUY" 23450 (fun _ => 0)).filled_quantity = 200 ∧
    (executeVwap 10 3 [1, 2, 3] "BUY" 100 (fun _ => 0)).filled_quantity = 10 := by
  refine ⟨(slice_conservation.1 50 "BUY" 23450).1, ?_, ?_, ?_⟩
  · exact (slice_conservation.2.1 100 10 "BUY" 23450 (fun _ => 0) (by norm_num)).1
  · exact (slice_conservation.2.2.1 200 (some 40) 5 "BUY" 23450 (fun _ => 0)
      (by norm_num)).1
  · refine (slice_conservation.2.2.2 10 3 [1, 2, 3] "BUY" 100 (fun _ => 0) ?_).1
    right
    refine ⟨by norm_num, ?_, by norm_num [tailN]⟩
    intro v hv
    simp only [tailN, List.length_cons, List.length_nil] at hv
    norm_num at hv
    rcases hv with h | h | h <;> simp [h]

/-! ### C8 — the position-sizing formula the code actually computes -/

/-- C8, counterexample.  For a strategy registered with `risk_per_trade_pct
= 2` (allocation 10000, so `max_risk_per_trade = 200`), entry 10 and stop 9:
the code divides the full `max_risk_per_trade` by the stop distance and
returns 200, while the claimed formula caps the risk amount at
`allocatedCapital × 0.01 = 100` first and returns 100. -/
theorem position_size_cex :
    calculatePositionSize (addStrategy (mkPortfolioManager 10000) "A" 100 3 2)
      "A" 10 9 = 200 ∧
    specPositionSize (addStrategy (mkPortfolioManager 10000) "A" 100 3 2)
      "A" 10 9 = 100 ∧
    (200 : ℤ) ≠ 100 := by
  refine ⟨?_, ?_, by decide⟩
  · norm_num [calculatePositionSize, addStrategy, mkPortfolioManager, lookupD,
      insertD, pyInt]
  · norm_num [specPositionSize, addStrategy, mkPortfolioManager, lookupD, insertD]

/-- C8, amended.  For a registered strategy the computed quantity is
`int(max_risk_per_trade / |entry − stop|)` capped by
`int(allocated_capital / entry)` — the risk amount is `max_risk_per_trade`
itself (`allocated_capital × riskPerTradePct/100`, 1% only by default), not
`min(maxRiskPerTrade, allocatedCapital × 0.01)`.  When entry = stop the size
is 0, but nothing rejects the trade as INVALID_STOP_LOSS (no such error
exists): a zero-quantity open passing `can_open_position` still creates a
position, debiting nothing. -/
theorem position_size_amended :
    (∀ (m : PortfolioManager) (n : String) (a : StrategyAllocation) (e sl : ℚ),
      lookupD m.strategy_allocations n = some a →
      (|e - sl| = 0 → calculatePositionSize m n e sl = 0) ∧
      (|e - sl| ≠ 0 → calculatePositionSize m n e sl
        = min (pyInt (a.max_risk_per_trade / |e - sl|))
            (pyInt (a.allocated_capital / e)))) ∧
    (∀ (m : PortfolioManager) (n s : String) (e sl t : ℚ),
      canOpenPosition m n = true →
      (openPosition m n s 0 e sl t).1 = some m.next_position_id ∧
      (openPosition m n s 0 e sl t).2.available_capital = m.available_capital ∧
      (openPosition m n s 0 e sl t).2.active_positions.length
        = m.active_positions.length + 1) := by
  constructor
  · intro m n a e sl ha
    unfold calculatePositionSize
    simp only [ha]
    constructor
    · intro h
      rw [if_pos h]
    · intro h
      rw [if_neg h]
  · intro m n s e sl t h
    unfold openPosition
    simp [h]

/-- Witness for C8's amended theorem at the counterexample state and a
zero-quantity open. -/
theorem position_size_amended_witness :
    calculatePositionSize (addStrategy (mkPortfolioManager 10000) "A" 100 3 2) "A" 10 9
      = min (pyInt ((freshAllocation 10000 "A" 100 3 2).max_risk_per_trade / |(10 : ℚ) - 9|))
          (pyInt ((freshAllocation 10000 "A" 100 3 2).allocated_capital / 10)) ∧
    (openPosition (addStrategy (mkPortfolioManager 10000) "A" 100 3 2)
        "A" "X" 0 10 10 12).2.available_capital
      = (addStrategy (mkPortfolioManager 10000) "A" 100 3 2).available_capital := by
  have hlook : lookupD (addStrategy (mkPortfolioManager 10000) "A" 100 3 2).strategy_allocations
      "A" = some (freshAllocation 10000 "A" 100 3 2) := by
    rw [addStrategy_allocations_accepted (mkPortfolioManager 10000) "A" 100 3 2
      (by norm_num)]
    exact lookupD_insertD_self (mkPortfolioManager 10000).strategy_allocations "A" _
  constructor
  · exact (position_size_amended.1 _ "A" _ 10 9 hlook).2 (by norm_num)
  · exact (position_size_amended.2 _ "A" "X" 10 10 12 (by decide)).2.1

/-! ### C9 — the Kelly-criterion allocator -/

/-- C9.  `kelly_criterion` returns 0 when `avg_loss = 0`, otherwise the
half-Kelly fraction of the Kelly formula on `b = avg_win/avg_loss`, expressed
in percent and clamped to `[0, 25]`; at (60, 1500, 1000) it returns exactly
`50/3` (= 16.666…, displayed as 16.67), unclamped.  (For `avg_win = 0` with
`avg_loss ≠ 0` the Python code raises `ZeroDivisionError`; the claim's own
formula divides by the same `b`, and `ℚ`'s total division makes both sides 0
there.) -/
theorem kelly_spec :
    (∀ w aw : ℚ, kellyCriterion w aw 0 = 0) ∧
    (∀ w aw al : ℚ, al ≠ 0 →
      kellyCriterion w aw al
        = max 0 (min 25
            (((w / 100) * (aw / al) - (1 - w / 100)) / (aw / al) * (1 / 2) * 100))) ∧
    kellyCriterion 60 1500 1000 = 50 / 3 := by
  refine ⟨?_, ?_, ?_⟩
  · intro w aw
    simp [kellyCriterion]
  · intro w aw al h
    simp [kellyCriterion, h]
  · rw [show kellyCriterion 60 1500 1000
        = max 0 (min 25 (((60 / 100 : ℚ) * (1500 / 1000) - (1 - 60 / 100))
          / (1500 / 1000) * (1 / 2) * 100)) from by norm_num [kellyCriterion]]
    norm_num

/-- Witness for C9's clamp characterization at (60, 1500, 1000). -/
theorem kelly_spec_witness :
    kellyCriterion 60 1500 1000
      = max 0 (min 25 ((((60 : ℚ) / 100) * (1500 / 1000) - (1 - 60 / 100))
          / (1500 / 1000) * (1 / 2) * 100)) :=
  kelly_spec.2.1 60 1500 1000 (by norm_num)

/-! ### C10 — allocator outputs are positive and sum to 100 -/

theorem perfScore_pos (p : StrategyPerf) : 0 < perfScore p :=
  lt_of_lt_of_le (by norm_num) (le_max_left _ _)

theorem invVol_pos (v : ℚ) : (0 : ℚ) < if v > 0 then 1 / v else 1 := by
  split
  · rename_i h
    exact one_div_pos.mpr h
  · norm_num

theorem list_sum_map_div_mul {α : Type} (l : List α) (f : α → ℚ) (c d : ℚ) :
    (l.map (fun x => f x / c * d)).sum = (l.map f).sum / c * d := by
  induction l with
  | nil => simp
  | cons x xs ih =>
    simp only [List.map_cons, List.sum_cons, ih]
    ring

theorem performanceBased_vals (perfs : List (String × StrategyPerf)) :
    (performanceBased perfs).map (fun a => a.2)
      = perfs.map (fun p => perfScore p.2
          / (perfs.map (fun p => perfScore p.2)).sum * 100) := by
  unfold performanceBased
  simp [List.map_map, Function.comp]
  intro a b hab
  rfl

theorem riskParity_vals (vols : List (String × ℚ)) :
    (riskParity vols).map (fun a => a.2)
      = vols.map (fun p => (if p.2 > 0 then 1 / p.2 else 1)
          / (vols.map (fun p => if p.2 > 0 then 1 / p.2 else 1)).sum * 100) := by
  unfold riskParity
  simp [List.map_map, Function.comp]
  intro a b hab
  rfl

/-- C10.  On a non-empty input, `performance_based` and `risk_parity`
produce strictly positive percentages summing to exactly 100: the scores are
floored at 0.1 and the inverse-volatility weights at 1 (for non-positive
volatility), so the normalizing total is positive and never zero. -/
theorem allocator_normalization :
    (∀ perfs : List (String × StrategyPerf), perfs ≠ [] →
      (∀ a ∈ performanceBased perfs, 0 < a.2) ∧
      ((performanceBased perfs).map (fun a => a.2)).sum = 100) ∧
    (∀ vols : List (String × ℚ), vols ≠ [] →
      (∀ a ∈ riskParity vols, 0 < a.2) ∧
      ((riskParity vols).map (fun a => a.2)).sum = 100) := by
  constructor
  · intro perfs hne
    have hTpos : 0 < (perfs.map (fun p => perfScore p.2)).sum := by
      apply List.sum_pos
      · intro x hx
        obtain ⟨p, hp, rfl⟩ := List.mem_map.mp hx
        exact perfScore_pos p.2
      · simpa using hne
    constructor
    · intro a ha
      have hmem : a.2 ∈ (performanceBased perfs).map (fun a => a.2) :=
        List.mem_map_of_mem (fun a => a.2) ha
      rw [performanceBased_vals] at hmem
      obtain ⟨p, hp, hval⟩ := List.mem_map.mp hmem
      rw [← hval]
      have := perfScore_pos p.2
      positivity
    · rw [performanceBased_vals,
        list_sum_map_div_mul perfs (fun p => perfScore p.2)
          ((perfs.map (fun p => perfScore p.2)).sum) 100,
        div_self (ne_of_gt hTpos), one_mul]
  · intro vols hne
    have hTpos : 0 < (vols.map (fun p => if p.2 > 0 then 1 / p.2 else 1)).sum := by
      apply List.sum_pos
      · intro x hx
        obtain ⟨p, hp, rfl⟩ := List.mem_map.mp hx
        exact invVol_pos p.2
      · simpa using hne
    constructor
    · intro a ha
      have hmem : a.2 ∈ (riskParity vols).map (fun a => a.2) :=
        List.mem_map_of_mem (fun a => a.2) ha
      rw [riskParity_vals] at hmem
      obtain ⟨p, hp, hval⟩ := List.mem_map.mp hmem
      rw [← hval]
      have h1 := invVol_pos p.2
      positivity
    · rw [riskParity_vals,
        list_sum_map_div_mul vols (fun p => if p.2 > 0 then 1 / p.2 else 1)
          ((vols.map (fun p => if p.2 > 0 then 1 / p.2 else 1)).sum) 100,
        div_self (ne_of_gt hTpos), one_mul]

/-- Witness for C10 on concrete two-strategy inputs. -/
theorem allocator_normalization_witness :
    ((∀ a ∈ performanceBased [("A", ⟨65, 5, 3/2⟩), ("B", ⟨58, 3, 6/5⟩)], 0 < a.2) ∧
      ((performanceBased [("A", ⟨65, 5, 3/2⟩), ("B", ⟨58, 3, 6/5⟩)]).map
        (fun a => a.2)).sum = 100) ∧
    ((∀ a ∈ riskParity [("A", 3/20), ("B", 1/5)], 0 < a.2) ∧
      ((riskParity [("A", 3/20), ("B", 1/5)]).map (fun a => a.2)).sum = 100) :=
  ⟨allocator_normalization.1 [("A", ⟨65, 5, 3/2⟩), ("B", ⟨58, 3, 6/5⟩)] (by simp),
   allocator_normalization.2 [("A", 3/20), ("B", 1/5)] (by simp)⟩

end DevilTrading
